import Mathlib

/-
Verification of the blueblue BLE scanner (two program variants:
the device-dashboard variant `main.go` and the proximity-beacon variant).

Shallow embedding conventions:
  * Go byte slices are `List Nat`, each element standing for one byte
    (Go's byte truncation is modelled by `% 256` / `% 16` where the
    rendering functions consume a value).
  * Go slice expressions `s[lo:hi]` and index expressions that can panic
    are modelled with `Option`: `none` stands for a Go runtime panic
    (index out of range), not for an error value returned by the code.
  * Timestamps are whole seconds, modelled as `Int`; `time.Now()` is an
    explicit `now` parameter.
-/

namespace Blueblue

/-- The sixteen lowercase hexadecimal digit characters, in value order:
digits `0`-`9` (code points 48-57) then letters `a`-`f` (97-102). -/
def hexChars : List Char :=
  (List.range 16).map (fun n => if n < 10 then Char.ofNat (48 + n) else Char.ofNat (87 + n))

/-- Lowercase hex digit of the low nibble of `n` (as used by `encoding/hex`
and `fmt %x`, which render lowercase). -/
def hexDigit (n : Nat) : Char := hexChars.getD (n % 16) '0'

/-- `encoding/hex` rendering of one byte: high nibble digit then low nibble
digit, always two characters. -/
def byteHex (b : Nat) : List Char := [hexDigit (b / 16), hexDigit b]

/-- Character stream of Go's `hex.EncodeToString`: two lowercase hex digits
per byte, in order. -/
def hexEncodeChars : List Nat → List Char
  | [] => []
  | b :: rest => byteHex b ++ hexEncodeChars rest

/-- Go's `hex.EncodeToString` on a byte slice. -/
def hexEncode (l : List Nat) : String := String.mk (hexEncodeChars l)

/-- Go's `fmt.Sprintf` with verb `%x` applied to a single `byte` value:
minimal-width lowercase hex, one digit below 0x10, two digits otherwise
(no zero padding). -/
def fmtHexByte (b : Nat) : String :=
  if b % 256 < 16 then String.mk [hexDigit b]
  else String.mk [hexDigit (b / 16), hexDigit b]

/-- A string all of whose characters are lowercase hexadecimal digits. -/
def lowerHex (s : String) : Prop := ∀ c ∈ s.data, c ∈ hexChars

/-- The empty string (what `URL.Query().Get` returns for an absent
parameter, and the zero value of Go string fields). -/
def noStr : String := ""

/-- Sample device address used in concrete instances. -/
def addrX : String := "X"

/-- Sample non-numeric `last` query parameter. -/
def lastAbc : String := "abc"

/-- Go slice expression `l[lo:hi]`: defined exactly when `lo ≤ hi ≤ len l`,
otherwise the program panics (`none`). -/
def goSlice (l : List Nat) (lo hi : Nat) : Option (List Nat) :=
  if lo ≤ hi ∧ hi ≤ l.length then some ((l.drop lo).take (hi - lo)) else none

/-- Decimal digit accumulation used to model `strconv.Atoi`: consumes the
remaining characters, failing on the first non-digit. -/
def decDigitsAux : List Char → Nat → Option Nat
  | [], acc => some acc
  | c :: rest, acc =>
    if c.isDigit then decDigitsAux rest (acc * 10 + (c.toNat - 48)) else none

/-- Go's `strconv.Atoi`: optional sign followed by at least one decimal
digit; everything else is an error (`none`), in which case Atoi's integer
result is its zero value 0. -/
def goAtoi (s : String) : Option Int :=
  match s.data with
  | [] => none
  | '+' :: rest =>
    if rest = [] then none else (decDigitsAux rest 0).map Int.ofNat
  | '-' :: rest =>
    if rest = [] then none else (decDigitsAux rest 0).map (fun n => -(Int.ofNat n))
  | cs => (decDigitsAux cs 0).map Int.ofNat

namespace BeaconApp

/-- The `Beacon` record of the proximity-beacon variant. -/
structure Beacon where
  MAC : String
  Detected : Int
  Name : String
  UUID : String
  Major : String
  Minor : String
  RSSI : Int
  ManufacturerData : String
  ServiceUUID : String
  ServiceData : String
  Battery : String
  Temperature : String
  BaseStation : String
deriving DecidableEq

/-- `getUUID`: `hex.EncodeToString(md[4:20])`; panics (`none`) when
`len md < 20`. -/
def getUUID (md : List Nat) : Option String := (goSlice md 4 20).map hexEncode

/-- `getMajor`: `hex.EncodeToString(md[21:23])`; panics when `len md < 23`. -/
def getMajor (md : List Nat) : Option String := (goSlice md 21 23).map hexEncode

/-- `getMinor`: `hex.EncodeToString(md[24:26])`; panics when `len md < 26`. -/
def getMinor (md : List Nat) : Option String := (goSlice md 24 26).map hexEncode

/-- `getBatteryLevel`: `fmt.Sprintf("%x", md[len(md)-1])`; panics when
`md` is empty. -/
def getBatteryLevel (md : List Nat) : Option String := md.getLast?.map fmtHexByte

/-- The decode step the spec calls `decodeProximityBeacon`: the four field
extractors applied to the same manufacturer data (as `advHandler` does);
`none` when any extraction panics. -/
def decodeProximityBeacon (md : List Nat) : Option (String × String × String × String) :=
  match getUUID md, getMajor md, getMinor md, getBatteryLevel md with
  | some u, some ma, some mi, some b => some (u, ma, mi, b)
  | _, _, _, _ => none

/-- The service-UUID signature test in `advHandler`:
`s.UUID[0] == 0x03 && s.UUID[1] == 0x18` with Go's short-circuit `&&`.
`none` models an index-out-of-range panic: an empty UUID panics at
`s.UUID[0]`; a one-byte UUID panics at `s.UUID[1]` only when the first
byte matched 0x03. -/
def svcUUIDCheck (uuid : List Nat) : Option Bool :=
  match uuid with
  | [] => none
  | [b0] => if b0 == 3 then none else some false
  | b0 :: b1 :: _ => some (b0 == 3 && b1 == 24)

/-- The registry mutation in `advHandler`, line `beacons = append(beacons, beacon)`:
the beacon variant appends every sighting to the `beacons` slice. -/
def beaconRegistryAdd (beacons : List Beacon) (b : Beacon) : List Beacon :=
  beacons ++ [b]

/-- `filterByDate`: the Go loop appending every beacon whose `Detected`
time is strictly after `now - sec` seconds, in input order. -/
def filterByDate (beacons : List Beacon) (sec : Int) (now : Int) : List Beacon :=
  match beacons with
  | [] => []
  | b :: rest =>
    if now - sec < b.Detected then b :: filterByDate rest sec now
    else filterByDate rest sec now

/-- Response of the `/beacons` handler: whether the error template was
rendered, and the JSON body that is written. -/
structure BeaconsResponse where
  errorPage : Bool
  body : List Beacon
deriving DecidableEq

/-- The default staleness window substituted for an absent `last` query
parameter. -/
def defaultLast : String := "60"

/-- `beaconsJSON`: reads query parameter `last` (`""` when absent, as
`URL.Query().Get` returns), substitutes `"60"` when empty, converts with
`strconv.Atoi`. The error branch renders the error template but does not
return, so the handler always goes on to filter (with `last` left at
Atoi's zero value 0 on error) and to write the JSON body. -/
def beaconsJSON (lastQ : String) (beacons : List Beacon) (now : Int) : BeaconsResponse :=
  let lastParam := if lastQ = "" then defaultLast else lastQ
  match goAtoi lastParam with
  | none => ⟨true, filterByDate beacons 0 now⟩
  | some last => ⟨false, filterByDate beacons last now⟩

/-- What a scan-control HTTP handler does: status code, body text, the
value of the shared `stop` flag afterwards, and whether a scan goroutine
was launched. -/
structure ScanCtlResult where
  status : Nat
  body : String
  stopAfter : Bool
  launched : Bool
deriving DecidableEq

/-- Body written by `startScan` when already scanning. -/
def msgAlreadyScanning : String := "Already scanning."

/-- Body written by `startScan` when it accepts the request. -/
def msgStartAccepted : String := "Request to start scanning accepted."

/-- Body written by `stopScan` when already stopped. -/
def msgAlreadyStopped : String := "Already stopped."

/-- Body written by `stopScan` when it accepts the request. -/
def msgStopAccepted : String := "Request to stop scanning accepted."

/-- The `startScan` handler: when `stop` is false (already scanning) it
writes 409 and changes nothing; otherwise it launches the scan goroutine
(which is what later sets `stop` to false). Scanning state is `stop = false`. -/
def startScan (stop : Bool) : ScanCtlResult :=
  if !stop then ⟨409, msgAlreadyScanning, stop, false⟩
  else ⟨200, msgStartAccepted, stop, true⟩

/-- The `stopScan` handler: when `stop` is true (already stopped) it writes
409 and changes nothing; otherwise it sets `stop` to true. -/
def stopScan (stop : Bool) : ScanCtlResult :=
  if stop then ⟨409, msgAlreadyStopped, stop, false⟩
  else ⟨200, msgStopAccepted, true, false⟩

/-- The context of one bounded scan session,
`ble.WithSigHandler(context.WithTimeout(context.Background(), *dur))`:
its timeout `*dur`, and the time at which anything external cancels the
context (`none`: nothing does; only the installed OS-signal handler can). -/
structure ScanSessionCtx where
  timeout : Nat
  cancelSignal : Option Nat
deriving DecidableEq

/-- When a scan session ends (modelling the external `ble.Scan` per the
spec: it returns when its context's timeout elapses or the context is
cancelled, whichever is first). -/
def sessionEnd (ctx : ScanSessionCtx) : Nat :=
  match ctx.cancelSignal with
  | none => ctx.timeout
  | some t => min t ctx.timeout

/-- Scan-controller state visible to the loop: the shared `stop` flag and
the in-flight session's context. -/
structure ScanState where
  stop : Bool
  session : ScanSessionCtx
deriving DecidableEq

/-- State effect of the `stopScan` handler: it only sets the `stop` flag
(when not already stopped); it never touches the in-flight session's
context. -/
def stopScanState (s : ScanState) : ScanState :=
  if s.stop then s else { s with stop := true }

/-- The scan loop's `for !stop` continuation test. -/
def scanLoopContinues (stop : Bool) : Bool := !stop

/-- A beacon record with the given address, detection time and RSSI
(remaining string fields empty). -/
def mkBeacon (mac : String) (t : Int) (rssi : Int) : Beacon :=
  ⟨mac, t, noStr, noStr, noStr, noStr, rssi, noStr, noStr, noStr, noStr, noStr, noStr⟩

/-- Sample manufacturer data of the minimum specified length 27:
bytes 0, 1, ..., 26. -/
def mdW : List Nat := List.range 27

end BeaconApp

namespace DeviceApp

/-- The `Device` record of the device-dashboard variant (`main.go`). -/
structure Device where
  Address : String
  Detected : Int
  Since : String
  Name : String
  RSSI : Int
  Advertisement : String
  ScanResponse : String
deriving DecidableEq

/-- Go map assignment `devices[k] = v` on the registry, modelled on an
association list without duplicate keys: replace the entry for `k` in
place when present, append otherwise. This is the mutation performed by
`adScanHandler`. -/
def mapUpsert (m : List (String × Device)) (k : String) (v : Device) :
    List (String × Device) :=
  if m.any (fun p => p.1 == k) then
    m.map (fun p => if p.1 == k then (k, v) else p)
  else m ++ [(k, v)]

/-- Go's `strconv.Itoa` on an integer number of seconds. -/
def goItoa (n : Int) : String :=
  if n < 0 then String.mk ('-' :: Nat.toDigits 10 n.natAbs)
  else String.mk (Nat.toDigits 10 n.natAbs)

/-- The collection loop of `showDevices`: for each device (in registry
iteration order) refresh the display-only `Since` field, then keep it
exactly when `Detected` is strictly after `now - 60` seconds. -/
def collectLive : List Device → Int → List Device
  | [], _ => []
  | d :: rest, now =>
    let d2 := { d with Since := goItoa (now - d.Detected) }
    if now - 60 < d2.Detected then d2 :: collectLive rest now
    else collectLive rest now

/-- The comparison underlying `sort.SliceStable(data, RSSI i > RSSI j)`:
`a` may stay before `b` exactly when not `less b a`, i.e. `b.RSSI ≤ a.RSSI`. -/
def rssiLE (a b : Device) : Bool := decide (b.RSSI ≤ a.RSSI)

/-- The stable descending-RSSI sort of `showDevices`
(`sort.SliceStable` modelled by the stable `List.mergeSort`). -/
def sortByRSSI (data : List Device) : List Device := data.mergeSort rssiLE

/-- `showDevices`: collect the live entries, then stable-sort them by
descending RSSI. -/
def showDevices (devices : List Device) (now : Int) : List Device :=
  sortByRSSI (collectLive devices now)

/-- The loop of `formatHex` over the characters of an (ASCII hex) string:
at every even index it appends the two-character pair and one space.
For an odd-length input the final pair access `instr[i:i+2]` is out of
range (`none`); even-length inputs always succeed. -/
def formatHexChars : List Char → Option (List Char)
  | [] => some []
  | [_] => none
  | c1 :: c2 :: rest => (formatHexChars rest).map (fun r => c1 :: c2 :: ' ' :: r)

/-- `formatHex`: regroup a hex string into space-terminated pairs. -/
def formatHex (s : String) : Option String := (formatHexChars s.data).map String.mk

/-- The operation the spec calls `formatRawBytes`: how `adScanHandler`
renders raw bytes, `formatHex(hex.EncodeToString(raw))`. -/
def formatRawBytes (raw : List Nat) : Option String := formatHex (hexEncode raw)

/-- Modelled from the spec's words for comparison (a rendering of bytes as
lowercase hex pairs, each pair followed by exactly one space, including a
trailing space after the final pair): the character stream. -/
def specPairsChars : List Nat → List Char
  | [] => []
  | b :: rest => byteHex b ++ (' ' :: specPairsChars rest)

/-- Modelled from the spec's words: the `formatRawBytes` output format. -/
def specFormatRawBytes (raw : List Nat) : String := String.mk (specPairsChars raw)

/-- Expected rendering of `[0xAA, 0xBB]`. -/
def aabbOut : String := "aa bb "

/-- Sample device record for address `addrX` with RSSI 1. -/
def dX1 : Device := ⟨addrX, 0, noStr, noStr, 1, noStr, noStr⟩

/-- Sample device record for address `addrX` with RSSI 2. -/
def dX2 : Device := ⟨addrX, 0, noStr, noStr, 2, noStr, noStr⟩

end DeviceApp

end Blueblue

open Blueblue Blueblue.BeaconApp Blueblue.DeviceApp

/-! ## Helper lemmas -/

theorem hexDigit_mem (n : Nat) : hexDigit n ∈ hexChars := by
  have h : n % 16 < hexChars.length := by
    have : n % 16 < 16 := Nat.mod_lt _ (by norm_num)
    simpa [hexChars] using this
  rw [hexDigit, List.getD_eq_getElem _ _ h]
  exact List.getElem_mem h

theorem mem_hexEncodeChars {c : Char} :
    ∀ {l : List Nat}, c ∈ hexEncodeChars l → c ∈ hexChars := by
  intro l
  induction l with
  | nil => intro h; simp [hexEncodeChars] at h
  | cons b rest ih =>
    intro h
    simp only [hexEncodeChars, byteHex, List.cons_append, List.nil_append,
      List.mem_cons] at h
    rcases h with h | h | h
    · rw [h]; exact hexDigit_mem _
    · rw [h]; exact hexDigit_mem _
    · exact ih h

theorem hexEncode_length (l : List Nat) : (hexEncode l).length = 2 * l.length := by
  show (hexEncodeChars l).length = 2 * l.length
  induction l with
  | nil => rfl
  | cons b rest ih =>
    simp [hexEncodeChars, byteHex, ih]
    omega

theorem lowerHex_hexEncode (l : List Nat) : lowerHex (hexEncode l) := by
  intro c hc
  exact mem_hexEncodeChars hc

theorem fmtHexByte_length (b : Nat) :
    (fmtHexByte b).length = if b % 256 < 16 then 1 else 2 := by
  unfold fmtHexByte
  split <;> rfl

theorem lowerHex_fmtHexByte (b : Nat) : lowerHex (fmtHexByte b) := by
  intro c hc
  by_cases hb : b % 256 < 16
  · have he : fmtHexByte b = String.mk [hexDigit b] := by
      rw [fmtHexByte, if_pos hb]
    rw [he] at hc
    have hc2 : c ∈ [hexDigit b] := hc
    rw [List.mem_singleton] at hc2
    rw [hc2]
    exact hexDigit_mem _
  · have he : fmtHexByte b = String.mk [hexDigit (b / 16), hexDigit b] := by
      rw [fmtHexByte, if_neg hb]
    rw [he] at hc
    have hc2 : c ∈ [hexDigit (b / 16), hexDigit b] := hc
    rcases List.mem_cons.mp hc2 with h | h
    · rw [h]
      exact hexDigit_mem _
    · rw [List.mem_singleton] at h
      rw [h]
      exact hexDigit_mem _

/-! ## C1 -/

/-- Claim C1 (code evidence): the decoder performs no length check at all.
`none` models a Go index-out-of-range panic, not a returned error value:
on 10-byte manufacturer data the decode panics inside `getUUID`
(`md[4:20]`), and on 26-byte data (still shorter than the specified
minimum of 27) every extractor succeeds, so no `MalformedPayload` error is
produced in either case. -/
theorem decode_short_no_malformed_error :
    decodeProximityBeacon (List.replicate 10 0) = none
  ∧ decodeProximityBeacon (List.replicate 26 0)
      = some (hexEncode (List.replicate 16 0), hexEncode (List.replicate 2 0),
              hexEncode (List.replicate 2 0), fmtHexByte 0) := by
  constructor
  · rfl
  · rfl

/-! ## C4 -/

/-- Claim C4 (code evidence): on a non-numeric `last` parameter the
`/beacons` handler renders the error template, but — the error branch not
returning — it still filters with `last` left at Atoi's zero value 0 and
writes the JSON live-set body; on an absent `last` parameter the default
window of 60 seconds is used and no error is reported. -/
theorem beaconsJSON_error_still_writes_body (bs : List Beacon) (now : Int) :
    beaconsJSON lastAbc bs now = ⟨true, filterByDate bs 0 now⟩
  ∧ beaconsJSON noStr bs now = ⟨false, filterByDate bs 60 now⟩ :=
  ⟨rfl, rfl⟩

/-! ## C5 -/

/-- Claim C5: `filterByDate` returns exactly the entries whose `Detected`
time lies in the trailing window of `w` seconds before `now` (strictly
after `now - w`), in input order; an entry detected 90 seconds ago is
excluded from a 60-second window and included in a 120-second window; and
an absent `last` parameter makes the `/beacons` query use the 60-second
default window. -/
theorem live_window_filter (bs : List Beacon) (w now : Int) :
    filterByDate bs w now = bs.filter (fun b => decide (now - w < b.Detected))
  ∧ (∀ b : Beacon, b ∈ filterByDate bs w now ↔ b ∈ bs ∧ now - w < b.Detected)
  ∧ filterByDate [mkBeacon addrX (now - 90) 0] 60 now = []
  ∧ filterByDate [mkBeacon addrX (now - 90) 0] 120 now = [mkBeacon addrX (now - 90) 0]
  ∧ beaconsJSON noStr bs now = ⟨false, filterByDate bs 60 now⟩ := by
  have hfil : ∀ (l : List Beacon) (s : Int),
      filterByDate l s now = l.filter (fun b => decide (now - s < b.Detected)) := by
    intro l s
    induction l with
    | nil => rfl
    | cons b rest ih =>
      by_cases hb : now - s < b.Detected
      · simp [filterByDate, hb, ih]
      · simp [filterByDate, hb, ih]
  refine ⟨hfil bs w, ?_, ?_, ?_, rfl⟩
  · intro b
    rw [hfil bs w, List.mem_filter]
    simp
  · rw [hfil]
    have h1 : ¬ (now - 60 < (mkBeacon addrX (now - 90) 0).Detected) := by
      simp only [mkBeacon]
      omega
    simp [h1]
  · rw [hfil]
    have h2 : now - 120 < (mkBeacon addrX (now - 90) 0).Detected := by
      simp only [mkBeacon]
      omega
    simp [h2]

/-! ## C6 -/

/-- Claim C6: calling `startScan` while already scanning (`stop = false`)
answers HTTP 409 with the `AlreadyScanning` message, leaves the `stop`
flag unchanged and launches no scan; calling `stopScan` while already
stopped (`stop = true`) answers HTTP 409 with the `AlreadyStopped`
message and leaves the flag unchanged. Both handlers are total: neither
misuse is fatal. -/
theorem scan_misuse_409 :
    startScan false = ⟨409, msgAlreadyScanning, false, false⟩
  ∧ stopScan true = ⟨409, msgAlreadyStopped, true, false⟩ :=
  ⟨rfl, rfl⟩

/-! ## C8 -/

/-- Claim C8 (counterexample): in the Scanning state with a 5-second
session whose context nothing external cancels, a `stop()` request leaves
the session's cancellation signal untouched, so the session still ends
only when its full 5-second timeout elapses — it does not terminate
early, refuting the claim that `stop()` cancels the in-flight session
promptly. -/
theorem stop_session_runs_full_timeout :
    (stopScanState ⟨false, ⟨5, none⟩⟩).stop = true
  ∧ (stopScanState ⟨false, ⟨5, none⟩⟩).session.cancelSignal = none
  ∧ sessionEnd (stopScanState ⟨false, ⟨5, none⟩⟩).session = 5
  ∧ ¬ sessionEnd (stopScanState ⟨false, ⟨5, none⟩⟩).session < 5 := by
  decide

/-- Claim C8 (amended): `stop()` only sets the shared `stop` flag and
never touches the in-flight session's context, whose cancellation can
come only from its own timeout or the OS-signal handler; with no external
cancellation a session runs for its full configured timeout, and the scan
loop observes the flag and exits at its next iteration boundary. -/
theorem stop_sets_flag_only (s : ScanState) (t : Nat) :
    (stopScanState s).session = s.session
  ∧ (stopScanState s).stop = true
  ∧ scanLoopContinues (stopScanState s).stop = false
  ∧ sessionEnd ⟨t, none⟩ = t := by
  by_cases h : s.stop
  · refine ⟨?_, ?_, ?_, rfl⟩ <;> simp [stopScanState, scanLoopContinues, h]
  · refine ⟨?_, ?_, ?_, rfl⟩ <;> simp [stopScanState, scanLoopContinues, h]

/-! ## C10 -/

/-- Claim C10: the proximity-beacon signature test in `advHandler` is
total for every service-data UUID of at least 2 bytes, and on shorter
UUIDs it can panic (the empty UUID at `s.UUID[0]`; a one-byte UUID whose
first byte matches 0x03 at `s.UUID[1]`). -/
theorem svc_check_total_iff_two_bytes (u : List Nat) (h : 2 ≤ u.length) :
    (svcUUIDCheck u).isSome = true
  ∧ svcUUIDCheck ([] : List Nat) = none
  ∧ svcUUIDCheck [3] = none := by
  refine ⟨?_, rfl, rfl⟩
  match u with
  | [] => simp at h
  | [b] => simp at h
  | b0 :: b1 :: rest => rfl

/-- Witness for C10 at the concrete UUID `[0x03, 0x18]`. -/
theorem svc_check_total_iff_two_bytes_witness :
    2 ≤ ([3, 24] : List Nat).length
  ∧ ((svcUUIDCheck [3, 24]).isSome = true
      ∧ svcUUIDCheck ([] : List Nat) = none
      ∧ svcUUIDCheck [3] = none) :=
  ⟨by decide, svc_check_total_iff_two_bytes [3, 24] (by decide)⟩

/-! ## C3 -/

/-- Claim C3: on manufacturer data of at least the specified 27 bytes, the
decoded fields are exactly the hex renderings of the slices at the
documented 0-indexed offsets — bytes [4,20) for the identifier UUID,
[21,23) for major, [24,26) for minor, and the last byte for battery —
each a lowercase hex string of exact width: 32 characters for the UUID,
4 for major and minor, and an un-padded 1 or 2 characters for battery. -/
theorem decode_layout (md : List Nat) (h : 27 ≤ md.length) :
    ∃ b, md.getLast? = some b
      ∧ decodeProximityBeacon md =
          some (hexEncode ((md.drop 4).take 16), hexEncode ((md.drop 21).take 2),
                hexEncode ((md.drop 24).take 2), fmtHexByte b)
      ∧ (hexEncode ((md.drop 4).take 16)).length = 32
      ∧ (hexEncode ((md.drop 21).take 2)).length = 4
      ∧ (hexEncode ((md.drop 24).take 2)).length = 4
      ∧ (fmtHexByte b).length = (if b % 256 < 16 then 1 else 2)
      ∧ lowerHex (hexEncode ((md.drop 4).take 16))
      ∧ lowerHex (hexEncode ((md.drop 21).take 2))
      ∧ lowerHex (hexEncode ((md.drop 24).take 2))
      ∧ lowerHex (fmtHexByte b) := by
  have hne : md ≠ [] := by
    intro hnil
    rw [hnil] at h
    simp at h
  obtain ⟨b, hb⟩ := Option.isSome_iff_exists.mp (List.getLast?_isSome.mpr hne)
  have hU : getUUID md = some (hexEncode ((md.drop 4).take 16)) := by
    rw [getUUID, goSlice, if_pos ⟨by omega, by omega⟩]
    rfl
  have hMa : getMajor md = some (hexEncode ((md.drop 21).take 2)) := by
    rw [getMajor, goSlice, if_pos ⟨by omega, by omega⟩]
    rfl
  have hMi : getMinor md = some (hexEncode ((md.drop 24).take 2)) := by
    rw [getMinor, goSlice, if_pos ⟨by omega, by omega⟩]
    rfl
  have hB : getBatteryLevel md = some (fmtHexByte b) := by
    rw [getBatteryLevel, hb]
    rfl
  refine ⟨b, hb, ?_, ?_, ?_, ?_, fmtHexByte_length b, lowerHex_hexEncode _,
    lowerHex_hexEncode _, lowerHex_hexEncode _, lowerHex_fmtHexByte b⟩
  · rw [decodeProximityBeacon, hU, hMa, hMi, hB]
  · rw [hexEncode_length, List.length_take, List.length_drop]
    omega
  · rw [hexEncode_length, List.length_take, List.length_drop]
    omega
  · rw [hexEncode_length, List.length_take, List.length_drop]
    omega

/-- Witness for C3 at the concrete 27-byte manufacturer data `mdW`. -/
theorem decode_layout_witness :
    27 ≤ mdW.length
  ∧ ∃ b, mdW.getLast? = some b
      ∧ decodeProximityBeacon mdW =
          some (hexEncode ((mdW.drop 4).take 16), hexEncode ((mdW.drop 21).take 2),
                hexEncode ((mdW.drop 24).take 2), fmtHexByte b)
      ∧ (hexEncode ((mdW.drop 4).take 16)).length = 32
      ∧ (hexEncode ((mdW.drop 21).take 2)).length = 4
      ∧ (hexEncode ((mdW.drop 24).take 2)).length = 4
      ∧ (fmtHexByte b).length = (if b % 256 < 16 then 1 else 2)
      ∧ lowerHex (hexEncode ((mdW.drop 4).take 16))
      ∧ lowerHex (hexEncode ((mdW.drop 21).take 2))
      ∧ lowerHex (hexEncode ((mdW.drop 24).take 2))
      ∧ lowerHex (fmtHexByte b) :=
  ⟨by decide, decode_layout mdW (by decide)⟩

/-! ## C9 -/

/-- Claim C9: `formatRawBytes` (the composition `formatHex ∘
hex.EncodeToString` used by `adScanHandler`) renders every byte array as
lowercase hex pairs, each pair followed by exactly one space including a
trailing space after the final pair, and in particular renders
`[0xAA, 0xBB]` exactly as `"aa bb "`. -/
theorem formatRawBytes_hex_pairs (raw : List Nat) :
    formatRawBytes raw = some (specFormatRawBytes raw)
  ∧ formatRawBytes [170, 187] = some aabbOut := by
  constructor
  · have key : ∀ l : List Nat,
        formatHexChars (hexEncodeChars l) = some (specPairsChars l) := by
      intro l
      induction l with
      | nil => rfl
      | cons b rest ih =>
        show formatHexChars
            (hexDigit (b / 16) :: hexDigit b :: hexEncodeChars rest) = _
        rw [formatHexChars, ih]
        rfl
    show (formatHexChars (hexEncodeChars raw)).map String.mk
        = some (specFormatRawBytes raw)
    rw [key raw]
    rfl
  · rfl

/-! ## C2 -/

theorem mapUpsert_keys (m : List (String × Device)) (k : String) (v : Device) :
    (mapUpsert m k v).map Prod.fst =
      if m.any (fun p => p.1 == k) then m.map Prod.fst
      else m.map Prod.fst ++ [k] := by
  unfold mapUpsert
  split
  · rw [List.map_map]
    apply List.map_congr_left
    intro p hp
    by_cases hpk : p.1 = k
    · simp [Function.comp, hpk]
    · simp [Function.comp, hpk]
  · simp

theorem mapUpsert_nodup (m : List (String × Device)) (k : String) (v : Device)
    (hn : (m.map Prod.fst).Nodup) : ((mapUpsert m k v).map Prod.fst).Nodup := by
  rw [mapUpsert_keys]
  split
  · exact hn
  · rename_i hany
    rw [List.nodup_append]
    refine ⟨hn, List.nodup_singleton k, ?_⟩
    intro a ha hb
    rw [List.mem_singleton] at hb
    subst hb
    rw [List.mem_map] at ha
    obtain ⟨p, hp, hpa⟩ := ha
    exact hany (List.any_eq_true.mpr ⟨p, hp, by simp [hpa]⟩)

theorem mapUpsert_replace_filter (m : List (String × Device)) (k : String)
    (v : Device) (hn : (m.map Prod.fst).Nodup) :
    (mapUpsert m k v).filter (fun p => p.1 == k) = [(k, v)] := by
  induction m with
  | nil => simp [mapUpsert]
  | cons p rest ih =>
    have hrest : (rest.map Prod.fst).Nodup := by
      rw [List.map_cons] at hn
      exact hn.of_cons
    by_cases hpk : p.1 = k
    · have hbeq : (p.1 == k) = true := by
        simp [hpk]
      have hany : (p :: rest).any (fun q => q.1 == k) = true := by
        simp [List.any_cons, hbeq]
      have hknotin : k ∉ rest.map Prod.fst := by
        rw [List.map_cons, hpk, List.nodup_cons] at hn
        exact hn.1
      have hrestnil :
          (rest.map (fun q : String × Device => if q.1 == k then (k, v) else q)).filter
            (fun p => p.1 == k) = [] := by
        rw [List.filter_eq_nil_iff]
        intro q hq
        rw [List.mem_map] at hq
        obtain ⟨q0, hq0, rfl⟩ := hq
        have hq0k : q0.1 ≠ k := fun he => hknotin (List.mem_map.mpr ⟨q0, hq0, he⟩)
        simp [hq0k]
      unfold mapUpsert
      rw [if_pos hany, List.map_cons, if_pos hbeq, List.filter_cons, hrestnil]
      simp
    · have hnb : ¬ ((p.1 == k) = true) := by
        simp [hpk]
      by_cases hany : rest.any (fun q => q.1 == k) = true
      · have hany2 : (p :: rest).any (fun q => q.1 == k) = true := by
          simp [List.any_cons, hany]
        unfold mapUpsert
        rw [if_pos hany2, List.map_cons, if_neg hnb, List.filter_cons, if_neg hnb]
        have hres := ih hrest
        unfold mapUpsert at hres
        rw [if_pos hany] at hres
        exact hres
      · have hanyb : rest.any (fun q => q.1 == k) = false :=
          Bool.eq_false_iff.mpr hany
        have hany2 : ¬ ((p :: rest).any (fun q => q.1 == k) = true) := by
          simp [List.any_cons, hpk, hanyb]
        unfold mapUpsert
        rw [if_neg hany2, List.cons_append, List.filter_cons, if_neg hnb]
        have hres := ih hrest
        unfold mapUpsert at hres
        rw [if_neg hany] at hres
        exact hres

/-- Claim C2 (counterexample): in the beacon variant the registry mutation
of `advHandler` is an append, never an overwrite: after two sightings of
the same address `"X"` its `beacons` slice holds two entries keyed by
`"X"`, not exactly one. -/
theorem beacon_registry_appends_duplicate :
    ((beaconRegistryAdd (beaconRegistryAdd [] (mkBeacon addrX 0 1))
        (mkBeacon addrX 0 2)).filter (fun b => b.MAC == addrX)).length = 2 := by
  decide

/-- Claim C2 (amended): in the device-dashboard variant, whose registry is
a map keyed by address, upserting `(X, r1)` and then `(X, r2)` into a
registry with no duplicate keys leaves exactly one entry keyed by `X`,
equal to `r2`. -/
theorem registry_one_record_per_address (m : List (String × Device))
    (hn : (m.map Prod.fst).Nodup) (k : String) (r1 r2 : Device) :
    (mapUpsert (mapUpsert m k r1) k r2).filter (fun p => p.1 == k) = [(k, r2)] :=
  mapUpsert_replace_filter _ _ _ (mapUpsert_nodup m k r1 hn)

/-- Witness for the amended C2 at the empty registry and two concrete
records for address `"X"`. -/
theorem registry_one_record_per_address_witness :
    (([] : List (String × Device)).map Prod.fst).Nodup
  ∧ (mapUpsert (mapUpsert [] addrX dX1) addrX dX2).filter
      (fun p => p.1 == addrX) = [(addrX, dX2)] :=
  ⟨List.nodup_nil, registry_one_record_per_address [] List.nodup_nil addrX dX1 dX2⟩

/-! ## C7 -/

theorem rssiLE_trans : ∀ a b c : Device,
    rssiLE a b = true → rssiLE b c = true → rssiLE a c = true := by
  intro a b c hab hbc
  simp only [rssiLE, decide_eq_true_eq] at hab hbc ⊢
  omega

theorem rssiLE_total : ∀ a b : Device, (rssiLE a b || rssiLE b a) = true := by
  intro a b
  simp only [rssiLE, Bool.or_eq_true, decide_eq_true_eq]
  omega

theorem sortByRSSI_stable_filter (l : List Device) (r : Int) :
    (sortByRSSI l).filter (fun d => d.RSSI == r) = l.filter (fun d => d.RSSI == r) := by
  have hpair : (l.filter (fun d => d.RSSI == r)).Pairwise
      (fun a b => rssiLE a b = true) := by
    apply List.pairwise_of_forall_mem_list
    intro a ha b hb
    rw [List.mem_filter] at ha hb
    have ha2 : a.RSSI = r := by simpa using ha.2
    have hb2 : b.RSSI = r := by simpa using hb.2
    simp [rssiLE, ha2, hb2]
  have hsub : (l.filter (fun d => d.RSSI == r)).Sublist (sortByRSSI l) :=
    List.sublist_mergeSort rssiLE_trans rssiLE_total hpair (List.filter_sublist l)
  have hidem : (l.filter (fun d => d.RSSI == r)).filter (fun d => d.RSSI == r)
      = l.filter (fun d => d.RSSI == r) :=
    List.filter_eq_self.mpr (fun a ha => (List.mem_filter.mp ha).2)
  have hsub2 : (l.filter (fun d => d.RSSI == r)).Sublist
      ((sortByRSSI l).filter (fun d => d.RSSI == r)) := by
    have h1 := List.Sublist.filter (fun d => d.RSSI == r) hsub
    rwa [hidem] at h1
  have hlen : ((sortByRSSI l).filter (fun d => d.RSSI == r)).length
      = (l.filter (fun d => d.RSSI == r)).length :=
    ((List.mergeSort_perm l rssiLE).filter _).length_eq
  exact (hsub2.eq_of_length hlen.symm).symm

/-- Claim C7: the listing of the live query is produced by a stable sort
on descending RSSI: `showDevices` is the stable sort applied to the
collected live entries; every pair of adjacent entries in a sorted list
has non-increasing RSSI; and for every RSSI value the entries carrying it
appear in the sorted output in exactly their pre-sort relative order. -/
theorem devices_sorted_by_rssi_stable (devices : List Device) (now : Int)
    (l : List Device) (r : Int) :
    showDevices devices now = sortByRSSI (collectLive devices now)
  ∧ (sortByRSSI l).Chain' (fun a b => b.RSSI ≤ a.RSSI)
  ∧ (sortByRSSI l).filter (fun d => d.RSSI == r) = l.filter (fun d => d.RSSI == r) := by
  refine ⟨rfl, ?_, sortByRSSI_stable_filter l r⟩
  have hp := List.sorted_mergeSort rssiLE_trans rssiLE_total l
  have hp2 : (sortByRSSI l).Pairwise (fun a b => b.RSSI ≤ a.RSSI) := by
    refine List.Pairwise.imp ?_ hp
    intro a b hab
    simpa [rssiLE] using hab
  exact hp2.chain'
